import Mathlib

/-!
# HubP — verification of the registry relay engine

This file shallow-embeds the core logic of the HubP Docker-registry proxy:

* `src/proxy/proxy.go` — the relay engine (`proxyRequest`, `fetchWithToken`,
  `parseAuth`, `fetchToken`, `isRedirect`, `writeResponse`);
* the token-cache variant of the proxy package embedded in `src/main.go`
  (lines 860–1134: `tokenCache`, `handleAuth`, its `fetchToken`);
* the challenge rewrite of `src/unnamed/part_000` (`handleAuthChallenge`).

Modelling conventions:

* Go strings are Lean `String`s; every Go `strings.*` helper used by the
  repository is re-implemented here on `List Char` by structural recursion so
  that all definitions evaluate inside the kernel.  `Char.isWhitespace`
  models Go's `unicode.IsSpace` on the ASCII inputs that occur here.
* Go maps with string keys are association lists with unique keys;
  `m[k] = v` is `mapInsert`, `m[k]` (with its zero-value default) is
  `mapGet`, and the `v, ok := m[k]` form is `mapGet?`.
* The network is an `Oracle`: a function from the index of the network call
  and the request actually issued to the upstream response.  Responses carry
  the result of `json.Unmarshal` on their body as an abstract JSON object
  (`none` models a body that fails to decode), since the JSON text decoder
  is library code outside the repository.
* `net/url` is modelled for the URL shapes the repository handles: no
  percent-escaping (`QueryEscape` is the identity on the unreserved strings
  exercised here), no userinfo/fragment/opaque components, and reference
  resolution without dot-segment normalisation (no input here contains `.`
  or `..` segments).
* The recursion of `proxyRequest`/`fetchWithToken` in the Go source is
  unbounded; the embedding adds an explicit fuel parameter, and a result of
  `none` means the Go code would still be recursing after that many nested
  calls (divergence when it holds for every fuel).
-/

/-- Equality on `Except` results is decidable (needed so that concrete runs
of the embedded functions can be checked by `decide`). -/
instance {ε α : Type} [DecidableEq ε] [DecidableEq α] : DecidableEq (Except ε α) := fun x y =>
  match x, y with
  | .ok a, .ok b =>
    if h : a = b then isTrue (by rw [h])
    else isFalse (fun he => h (by cases he; rfl))
  | .ok _, .error _ => isFalse (fun he => Except.noConfusion he)
  | .error _, .ok _ => isFalse (fun he => Except.noConfusion he)
  | .error e, .error f =>
    if h : e = f then isTrue (by rw [h])
    else isFalse (fun he => h (by cases he; rfl))

namespace HubP

/-! ## Go `strings` helpers, on `List Char` -/

/-- `strings.Split(s, sep)` for a one-character separator. -/
def splitOnCharL (c : Char) : List Char → List (List Char)
  | [] => [[]]
  | x :: xs =>
    if x = c then [] :: splitOnCharL c xs
    else
      match splitOnCharL c xs with
      | t :: ts => (x :: t) :: ts
      | [] => [[x]]

/-- Split at the first occurrence of `c` (`strings.Cut` / `strings.SplitN _ _ 2`):
`none` when `c` does not occur. -/
def cutCharL (c : Char) : List Char → Option (List Char × List Char)
  | [] => none
  | x :: xs =>
    if x = c then some ([], xs)
    else (cutCharL c xs).map (fun p => (x :: p.1, p.2))

/-- Split at the first occurrence of the substring `sep` (`strings.Cut` for a
multi-character separator; only used with the nonempty separator `"://"`). -/
def cutSubL (sep : List Char) : List Char → Option (List Char × List Char)
  | [] => none
  | x :: xs =>
    if List.isPrefixOf sep (x :: xs) then some ([], (x :: xs).drop sep.length)
    else (cutSubL sep xs).map (fun p => (x :: p.1, p.2))

/-- Drop the characters satisfying `p` from both ends of a list
(the core of `strings.Trim` / `strings.TrimSpace`). -/
def trimBothL (p : Char → Bool) (l : List Char) : List Char :=
  ((l.dropWhile p).reverse.dropWhile p).reverse

/-- `strings.TrimSpace`. -/
def goTrimSpace (s : String) : String :=
  ⟨trimBothL Char.isWhitespace s.data⟩

/-- `strings.Trim(s, cutset)` for a one-character cutset: every leading and
every trailing occurrence of `c` is removed. -/
def goTrimChar (s : String) (c : Char) : String :=
  ⟨trimBothL (fun x => x = c) s.data⟩

/-- `strings.TrimPrefix(s, p)`. -/
def goTrimPre (s p : String) : String :=
  if List.isPrefixOf p.data s.data then ⟨s.data.drop p.data.length⟩ else s

/-- `strings.Split(s, sep)` for a one-character separator, on `String`. -/
def goSplit (s : String) (sep : Char) : List String :=
  (splitOnCharL sep s.data).map (fun l => ⟨l⟩)

/-- `strings.SplitN(s, sep, 2)` for a one-character separator. -/
def goSplitN2 (s : String) (sep : Char) : List String :=
  match cutCharL sep s.data with
  | none => [s]
  | some (a, b) => [⟨a⟩, ⟨b⟩]

/-- Byte-wise lexicographic order on character lists: the order in which
Go's `sort.Strings` sorts the (ASCII) query keys of this repository. -/
def strLeL : List Char → List Char → Bool
  | [], _ => true
  | _ :: _, [] => false
  | a :: as, b :: bs =>
    if a.toNat < b.toNat then true
    else if b.toNat < a.toNat then false
    else strLeL as bs

/-- `strLeL` on `String`. -/
def strLe (a b : String) : Bool :=
  strLeL a.data b.data

/-! ## Go string-keyed maps as association lists -/

/-- `v, ok := m[k]` on a Go `map[string]string`. -/
def mapGet? : List (String × String) → String → Option String
  | [], _ => none
  | (k', v) :: rest, k => if k' = k then some v else mapGet? rest k

/-- `m[k]` with Go's zero-value default `""`. -/
def mapGet (m : List (String × String)) (k : String) : String :=
  (mapGet? m k).getD ""

/-- `m[k] = v` on a Go `map[string]string`. -/
def mapInsert : List (String × String) → String → String → List (String × String)
  | [], k, v => [(k, v)]
  | (k', v') :: rest, k, v =>
    if k' = k then (k, v) :: rest else (k', v') :: mapInsert rest k v

/-- Go `http.Header.Get`: the first value stored for the key, `""` if none.
Header keys are taken as already canonicalised. -/
def headerGet (h : List (String × String)) (k : String) : String :=
  mapGet h k

/-! ## `parseAuth` — src/proxy/proxy.go lines 208–231

(The `parseAuth` of the variant embedded in `src/main.go` and of
`src/unnamed/part_000` is the same algorithm.) -/

/-- One comma-separated segment of a `WWW-Authenticate` value, as `parseAuth`
treats it: trim the segment, skip it when empty or without `=`, split once at
the first `=`, trim the key, trim the value and strip its surrounding double
quotes (`strings.Trim(v, "\"")`). -/
def segPair? (part : String) : Option (String × String) :=
  let part := goTrimSpace part
  if part = "" then none
  else
    match goSplitN2 part '=' with
    | [k, v] => some (goTrimSpace k, goTrimChar (goTrimSpace v) '"')
    | _ => none

/-- src/proxy/proxy.go `parseAuth`: strip a leading `"Bearer "`, split on
commas, and fold the parseable segments into a map (`result[key] = value`,
so a repeated key keeps the last occurrence). -/
def parseAuth (header : String) : List (String × String) :=
  (goSplit (goTrimPre header "Bearer ") ',').foldl
    (fun acc part =>
      match segPair? part with
      | some kv => mapInsert acc kv.1 kv.2
      | none => acc) []

/-- The key/value pairs of the parseable segments of `header`, in segment
order and before the map collapses repeated keys. -/
def pairsOf (header : String) : List (String × String) :=
  (goSplit (goTrimPre header "Bearer ") ',').filterMap segPair?


/-! ## `net/url` query values

`url.Values` is `map[string][]string`; modelled as an association list with
unique keys.  `QueryEscape`/`QueryUnescape` are the identity here: no string
this repository puts into a query needs escaping. -/

/-- Go `url.Values`. -/
abbrev QVals := List (String × List String)

/-- The value list stored for a key (`v[k]`, zero value `[]`). -/
def qGet : QVals → String → List String
  | [], _ => []
  | (k', vs) :: rest, k => if k' = k then vs else qGet rest k

/-- `url.Values.Add`: append one value for the key. -/
def qAdd : QVals → String → String → QVals
  | [], k, v => [(k, [v])]
  | (k', vs) :: rest, k, v =>
    if k' = k then (k', vs ++ [v]) :: rest else (k', vs) :: qAdd rest k v

/-- `url.Values.Set`: replace the key's values with the single value. -/
def qSet : QVals → String → String → QVals
  | [], k, v => [(k, [v])]
  | (k', vs) :: rest, k, v =>
    if k' = k then (k, [v]) :: rest else (k', vs) :: qSet rest k v

/-- `url.ParseQuery`: split on `&`, skip empty segments and segments holding
`;`, cut each segment at its first `=` (a segment without `=` maps the whole
segment to `""`), and append into the multimap. -/
def parseQuery (s : String) : QVals :=
  (goSplit s '&').foldl
    (fun acc seg =>
      if seg = "" then acc
      else if seg.data.contains ';' then acc
      else
        match cutCharL '=' seg.data with
        | some (k, v) => qAdd acc ⟨k⟩ ⟨v⟩
        | none => qAdd acc seg "") []

/-- The keys of `q` in the order `sort.Strings` leaves them
(`url.Values.Encode` sorts the map's keys before serialising). -/
def sortedKeys (q : QVals) : List String :=
  List.insertionSort (fun a b => strLe a b = true) (q.map (fun p => p.1))

/-- The `key=value` pairs `url.Values.Encode` writes, in output order:
keys sorted, each key followed by all its values in stored order. -/
def encodePairs (q : QVals) : List (String × String) :=
  ((sortedKeys q).map (fun k => (qGet q k).map (fun v => (k, v)))).flatten

/-- Serialise the encode pairs with `=` and `&` (escaping is the identity
here). -/
def joinAmp : List (String × String) → String
  | [] => ""
  | [p] => p.1 ++ "=" ++ p.2
  | p :: rest => p.1 ++ "=" ++ p.2 ++ "&" ++ joinAmp rest

/-- `url.Values.Encode`. -/
def encodeQ (q : QVals) : String :=
  joinAmp (encodePairs q)


/-! ## `net/url` URLs -/

/-- A parsed URL, restricted to the components this repository uses. -/
structure GoURL where
  scheme : String
  host : String
  path : String
  rawQuery : String
deriving DecidableEq, Repr

/-- `url.Parse` on the URL shapes the repository handles:
`scheme://host/path?query`, `/path?query` and `path?query` (no userinfo,
fragment or opaque part). -/
def parseURL (s : String) : GoURL :=
  match cutSubL "://".data s.data with
  | some (sch, rest) =>
    let hostL := rest.takeWhile (fun c => ¬ (c = '/' ∨ c = '?'))
    let tail := rest.drop hostL.length
    match cutCharL '?' tail with
    | some (p, q) => ⟨⟨sch⟩, ⟨hostL⟩, ⟨p⟩, ⟨q⟩⟩
    | none => ⟨⟨sch⟩, ⟨hostL⟩, ⟨tail⟩, ""⟩
  | none =>
    match cutCharL '?' s.data with
    | some (p, q) => ⟨"", "", ⟨p⟩, ⟨q⟩⟩
    | none => ⟨"", "", s, ""⟩

/-- `url.URL.String` for the same restricted shapes. -/
def urlString (u : GoURL) : String :=
  (if u.scheme = "" then "" else u.scheme ++ "://" ++ u.host) ++ u.path ++
    (if u.rawQuery = "" then "" else "?" ++ u.rawQuery)

/-- `base[:strings.LastIndex(base, "/")+1]` — the directory part used when a
relative path is merged onto the base path. -/
def lastSlashPre (p : String) : String :=
  ⟨(p.data.reverse.dropWhile (fun c => c ≠ '/')).reverse⟩

/-- `url.URL.ResolveReference` on the shapes above, without dot-segment
normalisation (no `.`/`..` segment occurs in this repository's traffic):
an absolute reference wins outright, `//host/...` keeps the base scheme, an
empty path keeps the base path (and its query when the reference has none),
a rooted path replaces the base path, and a relative path is merged onto the
base path's directory. -/
def resolveReference (base ref : GoURL) : GoURL :=
  if ref.scheme ≠ "" then ref
  else if ref.host ≠ "" then { ref with scheme := base.scheme }
  else if ref.path = "" then
    { base with rawQuery := if ref.rawQuery = "" then base.rawQuery else ref.rawQuery }
  else if ref.path.data.head? = some '/' then
    ⟨base.scheme, base.host, ref.path, ref.rawQuery⟩
  else
    ⟨base.scheme, base.host, lastSlashPre base.path ++ ref.path, ref.rawQuery⟩


/-! ## The network boundary -/

/-- The result of `json.Unmarshal` on a response body, as far as the
repository inspects it: a top-level object whose fields are strings
(`.str`) or anything else (`.other`). -/
inductive JVal where
  | str (s : String)
  | other
deriving DecidableEq, Repr

/-- Field lookup in a decoded JSON object. -/
def jGet? : List (String × JVal) → String → Option JVal
  | [], _ => none
  | (k', v) :: rest, k => if k' = k then some v else jGet? rest k

/-- `data[k].(string)` — `some` exactly when the field is present and a
string. -/
def jsonStr? (data : List (String × JVal)) (k : String) : Option String :=
  match jGet? data k with
  | some (JVal.str s) => some s
  | _ => none

/-- An upstream HTTP response.  `json` is the JSON decoding of `body`
(`none` when the body is not a JSON object); it is carried alongside the raw
body because the JSON text decoder is library code outside the repository. -/
structure Resp where
  status : Nat
  headers : List (String × String)
  body : String
  json : Option (List (String × JVal))
deriving DecidableEq, Repr

/-- One network call the proxy issues: a forwarded registry request (with
the headers it sends and `none` for a bodyless GET/HEAD), or the GET against
the token endpoint. -/
inductive Call where
  | registry (method url : String) (headers : List (String × String)) (body : Option String)
  | tokenGet (url : String)
deriving DecidableEq, Repr

/-- The environment: the response the upstream gives to the `n`-th network
call of a relay, given the request actually issued. -/
abbrev Oracle := Nat → Call → Resp

/-- Is this a token-endpoint call? -/
def isTokenCall : Call → Bool
  | .tokenGet _ => true
  | _ => false

/-- Is this a forwarded registry request? -/
def isRegistryCall : Call → Bool
  | .registry .. => true
  | _ => false

/-- How many token-endpoint calls a trace holds. -/
def tokenCalls (cs : List Call) : Nat :=
  (cs.filter isTokenCall).length

/-- How many forwarded registry requests a trace holds. -/
def registryCalls (cs : List Call) : Nat :=
  (cs.filter isRegistryCall).length

/-! ## The relay engine — src/proxy/proxy.go -/

namespace Proxy

/-- src/proxy/proxy.go line 18. -/
def targetHost : String := "registry-1.docker.io"

/-- `http.Header.Del`. -/
def headerDel (h : List (String × String)) (k : String) : List (String × String) :=
  h.filter (fun p => ¬ p.1 = k)

/-- `http.Header.Set`: replace every value of the key with the one value. -/
def headerSet (h : List (String × String)) (k v : String) : List (String × String) :=
  headerDel h k ++ [(k, v)]

/-- Lines 63–68 (and 130–133): copy the inbound headers, set `Host` to the
upstream host, delete `Accept-Encoding`. -/
def prepareHeaders (h : List (String × String)) : List (String × String) :=
  headerDel (headerSet h "Host" targetHost) "Accept-Encoding"

/-- src/proxy/proxy.go `isRedirect` (lines 199–206). -/
def isRedirect (statusCode : Nat) : Bool :=
  statusCode = 301 ∨ statusCode = 302 ∨ statusCode = 303 ∨
    statusCode = 307 ∨ statusCode = 308

/-- The inbound request as `HandleProxy` receives it (`r` and `bodyBytes`). -/
structure InReq where
  method : String
  headers : List (String × String)
  body : String
deriving DecidableEq, Repr

/-- Lines 52–56 (and 121–124): GET/HEAD requests are forwarded without a
body, other methods with the captured `bodyBytes`. -/
def bodyFor (r : InReq) : Option String :=
  if r.method = "GET" ∨ r.method = "HEAD" then none else some r.body

/-- The registry request `proxyRequest` issues (lines 57–68): inbound
method and headers prepared for the upstream, no `Authorization` of its
own. -/
def plainCall (r : InReq) (target : String) : Call :=
  Call.registry r.method target (prepareHeaders r.headers) (bodyFor r)

/-- The registry request `fetchWithToken` issues (lines 125–134): the same,
with `Authorization: Bearer <token>` set. -/
def authedCall (r : InReq) (target token : String) : Call :=
  Call.registry r.method target
    (headerSet (prepareHeaders r.headers) "Authorization" ("Bearer " ++ token))
    (bodyFor r)

/-- The distinct error returns of `fetchToken` (lines 234–289). -/
inductive TokenErr where
  | missingRealm
  | missingService
  | badStatus (code : Nat)
  | badJson
  | noToken
deriving DecidableEq, Repr

/-- Lines 281–288: prefer a nonempty `token` field, then a nonempty
`access_token` field, else fail. -/
def pickToken (data : List (String × JVal)) : Except TokenErr String :=
  match jsonStr? data "token" with
  | some t =>
    if t ≠ "" then .ok t
    else
      match jsonStr? data "access_token" with
      | some a => if a ≠ "" then .ok a else .error .noToken
      | none => .error .noToken
  | none =>
    match jsonStr? data "access_token" with
    | some a => if a ≠ "" then .ok a else .error .noToken
    | none => .error .noToken

/-- Lines 264–288: require status 200, decode the JSON body, pick the
token. -/
def tokenFromResp (resp : Resp) : Except TokenErr String :=
  if resp.status ≠ 200 then .error (.badStatus resp.status)
  else
    match resp.json with
    | none => .error .badJson
    | some data => pickToken data

/-- src/proxy/proxy.go `fetchToken` (lines 233–289): validate `realm` and
`service`, build the token-endpoint URL from the realm with `service` (and a
nonempty `scope`) set in its query, issue one GET, and read the token out of
the 200 JSON response.  Returns the result, the next call index and the
trace of network calls made. -/
def fetchToken (oracle : Oracle) (n : Nat) (authParams : List (String × String)) :
    Except TokenErr String × Nat × List Call :=
  match mapGet? authParams "realm" with
  | none => (.error .missingRealm, n, [])
  | some realm =>
    if realm = "" then (.error .missingRealm, n, [])
    else
      match mapGet? authParams "service" with
      | none => (.error .missingService, n, [])
      | some service =>
        if service = "" then (.error .missingService, n, [])
        else
          let reqURL := parseURL realm
          let q1 := qSet (parseQuery reqURL.rawQuery) "service" service
          let q2 :=
            match mapGet? authParams "scope" with
            | some scope => if scope ≠ "" then qSet q1 "scope" scope else q1
            | none => q1
          let u := { reqURL with rawQuery := encodeQ q2 }
          let call := Call.tokenGet (urlString u)
          (tokenFromResp (oracle n call), n + 1, [call])

/-- The engine of src/proxy/proxy.go: `relay … none` is `proxyRequest`
(lines 51–117) and `relay … (some token)` is `fetchWithToken`
(lines 120–168), with the mutual recursion bounded by fuel (`none` = the Go
code would still be recursing).  Returns the response handed to
`writeResponse` — streamed to the caller verbatim — with the next call index
and the trace of network calls. -/
def relay (oracle : Oracle) :
    Nat → Nat → InReq → String → Option String → Option (Resp × Nat × List Call)
  | 0, _, _, _, _ => none
  | fuel + 1, n, r, target, none =>
    let call := plainCall r target
    let resp := oracle n call
    if resp.status = 401 then
      -- lines 78–94: parse the challenge, fetch a token, retry with it;
      -- on incomplete params or a failed fetch, write the original 401
      let authParams := parseAuth (headerGet resp.headers "WWW-Authenticate")
      if mapGet authParams "realm" = "" ∨ mapGet authParams "service" = "" then
        some (resp, n + 1, [call])
      else
        match fetchToken oracle (n + 1) authParams with
        | (.error _, n', tcalls) => some (resp, n', call :: tcalls)
        | (.ok token, n', tcalls) =>
          if token = "" then some (resp, n', call :: tcalls)
          else
            (relay oracle fuel n' r target (some token)).map
              (fun x => (x.1, x.2.1, call :: tcalls ++ x.2.2))
    else
      -- lines 96–113: follow a redirect with a nonempty Location
      if isRedirect resp.status ∧ headerGet resp.headers "Location" ≠ "" then
        (relay oracle fuel (n + 1) r
            (urlString (resolveReference (parseURL target)
              (parseURL (headerGet resp.headers "Location")))) none).map
          (fun x => (x.1, x.2.1, call :: x.2.2))
      else some (resp, n + 1, [call])
  | fuel + 1, n, r, target, some token =>
    let call := authedCall r target token
    let resp := oracle n call
    -- lines 142–158: follow a redirect, keeping the token
    if isRedirect resp.status ∧ headerGet resp.headers "Location" ≠ "" then
      (relay oracle fuel (n + 1) r
          (urlString (resolveReference (parseURL target)
            (parseURL (headerGet resp.headers "Location")))) (some token)).map
        (fun x => (x.1, x.2.1, call :: x.2.2))
    else
      -- lines 160–164: a 401 on the authenticated retry goes back to the
      -- main logic (an unauthenticated `proxyRequest` on the same URL)
      if resp.status = 401 then
        (relay oracle fuel (n + 1) r target none).map
          (fun x => (x.1, x.2.1, call :: x.2.2))
      else some (resp, n + 1, [call])

/-- src/proxy/proxy.go `proxyRequest`. -/
def proxyRequest (oracle : Oracle) (fuel n : Nat) (r : InReq) (target : String) :
    Option (Resp × Nat × List Call) :=
  relay oracle fuel n r target none

/-- src/proxy/proxy.go `fetchWithToken`. -/
def fetchWithToken (oracle : Oracle) (fuel n : Nat) (r : InReq) (target token : String) :
    Option (Resp × Nat × List Call) :=
  relay oracle fuel n r target (some token)

end Proxy

/-! ## The token-cache proxy variant — src/main.go lines 860–1134

The repository also carries a variant of the proxy package with an in-memory
token cache (`tokenCache`, a `map[string]string` under an `RWMutex`, with
`handleAuth` and a three-argument `fetchToken`).  The cache claims are
settled against this code.  The concurrent lock discipline collapses to
sequential state passing here. -/

namespace CachedProxy

/-- The two error returns of `handleAuth` (src/main.go lines 950–986). -/
inductive AuthErr where
  | incomplete
  | fetchFailed (e : Proxy.TokenErr)
deriving DecidableEq, Repr

/-- The `json.Unmarshal` into `struct { Token, AccessToken string }`
(src/main.go lines 1101–1109): an absent field decodes to `""`, a non-string
field is a decode error. -/
def fieldStr (data : List (String × JVal)) (k : String) : Option String :=
  match jGet? data k with
  | none => some ""
  | some (JVal.str s) => some s
  | some JVal.other => none

/-- Lines 1097–1119: require status 200, decode the struct, return `Token`
if nonempty, else `AccessToken` if nonempty, else fail. -/
def structTokenFromResp (resp : Resp) : Except Proxy.TokenErr String :=
  if resp.status ≠ 200 then .error (.badStatus resp.status)
  else
    match resp.json with
    | none => .error .badJson
    | some data =>
      match fieldStr data "token", fieldStr data "access_token" with
      | some t, some a =>
        if t ≠ "" then .ok t
        else if a ≠ "" then .ok a
        else .error .noToken
      | _, _ => .error .badJson

/-- src/main.go `fetchToken(realm, service, scope)` (lines 1075–1120):
build the token URL from the realm with `service` (and a nonempty `scope`)
set in its query, issue one GET, decode the struct. -/
def fetchToken (oracle : Oracle) (n : Nat) (realm service scope : String) :
    Except Proxy.TokenErr String × Nat × List Call :=
  let reqURL := parseURL realm
  let q1 := qSet (parseQuery reqURL.rawQuery) "service" service
  let q2 := if scope ≠ "" then qSet q1 "scope" scope else q1
  let u := { reqURL with rawQuery := encodeQ q2 }
  let call := Call.tokenGet (urlString u)
  (structTokenFromResp (oracle n call), n + 1, [call])

/-- The cache key `fmt.Sprintf("%s:%s:%s", realm, service, scope)`
(src/main.go line 964). -/
def cacheKey (realm service scope : String) : String :=
  realm ++ ":" ++ service ++ ":" ++ scope

/-- The cache key `handleAuth` builds for a challenge header. -/
def cacheKeyOf (authHeader : String) : String :=
  cacheKey (mapGet (parseAuth authHeader) "realm")
    (mapGet (parseAuth authHeader) "service")
    (mapGet (parseAuth authHeader) "scope")

/-- src/main.go `handleAuth` (lines 950–986): parse the challenge, require
`realm` and `service`, look the `(realm, service, scope)` key up in the
token cache — a hit returns the cached token with no network call — and on
a miss fetch a token and store it under the key.  The cache entry is a bare
string: no timestamp is stored and no clock is consulted. -/
def handleAuth (oracle : Oracle) (n : Nat) (cache : List (String × String))
    (authHeader : String) :
    Except AuthErr String × List (String × String) × Nat × List Call :=
  let authParams := parseAuth authHeader
  let realm := mapGet authParams "realm"
  let service := mapGet authParams "service"
  let scope := mapGet authParams "scope"
  if realm = "" ∨ service = "" then (.error .incomplete, cache, n, [])
  else
    match mapGet? cache (cacheKey realm service scope) with
    | some token => (.ok token, cache, n, [])
    | none =>
      match fetchToken oracle n realm service scope with
      | (.error e, n', cs) => (.error (.fetchFailed e), cache, n', cs)
      | (.ok token, n', cs) =>
        (.ok token, mapInsert cache (cacheKey realm service scope) token, n', cs)

end CachedProxy

/-! ## The challenge rewrite — src/unnamed/part_000 lines 240–296 -/

namespace AuthRewrite

/-- The rewritten `WWW-Authenticate` value `handleAuthChallenge` builds
(src/unnamed/part_000 lines 247–250): the realm points at the proxy itself,
the service is the fixed string `registry.docker.io`, and a nonempty
upstream scope is appended. -/
def modifiedAuthHeader (currentDomain scope : String) : String :=
  let base := "Bearer realm=\"https://" ++ currentDomain ++
    "/auth/token\", service=\"registry.docker.io\""
  if scope ≠ "" then base ++ ", scope=\"" ++ scope ++ "\"" else base

/-- The rewritten header for a given upstream challenge: the scope is the
one `parseAuth` extracts from the upstream `WWW-Authenticate` value. -/
def handleAuthChallengeHeader (currentDomain upstreamHeader : String) : String :=
  modifiedAuthHeader currentDomain (mapGet (parseAuth upstreamHeader) "scope")

/-- src/unnamed/part_000 `handleAuthChallenge` (lines 241–275) as a response
transformation: every `WWW-Authenticate` header value is replaced by the
rewritten challenge; status, body and all other headers pass through. -/
def handleAuthChallengeResp (currentDomain : String) (resp : Resp) : Resp :=
  let modified := handleAuthChallengeHeader currentDomain
    (headerGet resp.headers "WWW-Authenticate")
  { resp with
    headers := resp.headers.map
      (fun p => if p.1 = "WWW-Authenticate" then (p.1, modified) else p) }

end AuthRewrite

/-! ## Lemmas about the string helpers on symbolic input -/

theorem splitOnCharL_of_not_mem (c : Char) (xs : List Char) (h : c ∉ xs) :
    splitOnCharL c xs = [xs] := by
  induction xs with
  | nil => rfl
  | cons x t ih =>
    have hx : ¬ x = c := fun he => h (by rw [he]; exact List.mem_cons_self _ _)
    rw [splitOnCharL, if_neg hx, ih (fun hm => h (List.mem_cons_of_mem _ hm))]

theorem splitOnCharL_append_cons (c : Char) (xs ys : List Char) (h : c ∉ xs) :
    splitOnCharL c (xs ++ c :: ys) = xs :: splitOnCharL c ys := by
  induction xs with
  | nil => simp [splitOnCharL]
  | cons x t ih =>
    have hx : ¬ x = c := fun he => h (by rw [he]; exact List.mem_cons_self _ _)
    rw [List.cons_append, splitOnCharL, if_neg hx,
      ih (fun hm => h (List.mem_cons_of_mem _ hm))]

theorem cutCharL_append_cons (c : Char) (ks vs : List Char) (h : c ∉ ks) :
    cutCharL c (ks ++ c :: vs) = some (ks, vs) := by
  induction ks with
  | nil => simp [cutCharL]
  | cons k t ih =>
    have hk : ¬ k = c := fun he => h (by rw [he]; exact List.mem_cons_self _ _)
    rw [List.cons_append, cutCharL, if_neg hk,
      ih (fun hm => h (List.mem_cons_of_mem _ hm))]
    rfl

theorem dropWhile_eq_self_of_head (p : Char → Bool) (l : List Char)
    (h : ∀ x ∈ l.head?, p x = false) : l.dropWhile p = l := by
  cases l with
  | nil => rfl
  | cons a t =>
    rw [List.dropWhile_cons, if_neg (by simp [h a (by simp)])]

theorem trimBothL_eq_self (p : Char → Bool) (l : List Char)
    (h1 : ∀ x ∈ l.head?, p x = false) (h2 : ∀ x ∈ l.getLast?, p x = false) :
    trimBothL p l = l := by
  unfold trimBothL
  rw [dropWhile_eq_self_of_head p l h1,
    dropWhile_eq_self_of_head p l.reverse (by rw [List.head?_reverse]; exact h2),
    List.reverse_reverse]

theorem trimBothL_cons_of_pos (p : Char → Bool) (c : Char) (l : List Char)
    (h : p c = true) : trimBothL p (c :: l) = trimBothL p l := by
  unfold trimBothL
  rw [List.dropWhile_cons, if_pos h]

theorem data_mk (l : List Char) : (String.mk l).data = l := rfl

theorem not_mem_appendL (a : Char) (l₁ l₂ : List Char)
    (h1 : a ∉ l₁) (h2 : a ∉ l₂) : a ∉ l₁ ++ l₂ := by
  simp only [List.mem_append]
  exact fun h => h.elim h1 h2

theorem not_mem_consL (a b : Char) (l : List Char)
    (h1 : ¬ a = b) (h2 : a ∉ l) : a ∉ b :: l := by
  simp only [List.mem_cons]
  exact fun h => h.elim h1 h2

theorem trimBothL_wrap (p : Char → Bool) (c : Char) (mid : List Char)
    (hc : p c = true) (hm : ∀ x ∈ mid, p x = false) :
    trimBothL p (c :: (mid ++ [c])) = mid := by
  cases mid with
  | nil =>
    unfold trimBothL
    simp [List.dropWhile, hc]
  | cons m ms =>
    unfold trimBothL
    rw [List.dropWhile_cons, if_pos hc,
      dropWhile_eq_self_of_head p ((m :: ms) ++ [c])
        (by simp; exact hm m (by simp)),
      List.reverse_append]
    have hrev : ∀ x ∈ (m :: ms).reverse.head?, p x = false := by
      rw [List.head?_reverse]
      intro x hx
      cases hlast : (m :: ms).getLast? with
      | none => rw [hlast] at hx; cases hx
      | some y =>
        rw [hlast] at hx
        cases hx
        exact hm _ (List.mem_of_mem_getLast? (by rw [hlast]; rfl))
    rw [show ([c].reverse ++ (m :: ms).reverse) = c :: (m :: ms).reverse by simp,
      List.dropWhile_cons, if_pos hc,
      dropWhile_eq_self_of_head p (m :: ms).reverse hrev,
      List.reverse_reverse]

theorem goTrimPre_of_data (s : String) (t : List Char)
    (h : s.data = "Bearer ".data ++ t) : goTrimPre s "Bearer " = ⟨t⟩ := by
  unfold goTrimPre
  rw [h, if_pos (List.isPrefixOf_iff_prefix.mpr (List.prefix_append _ _)),
    List.drop_left]

/-- A well-formed `key="value"` challenge segment parses to its key (as
trimmed) and its value with the wrapping quotes removed, whenever the key
has no `=` and the quoted middle contains no `"`. -/
theorem segPair?_quoted (key mid : List Char)
    (hkey_ne : key ≠ []) (hkey_eq : '=' ∉ key)
    (hkey_hd : ∀ x ∈ key.head?, x.isWhitespace = false)
    (hmid : '"' ∉ mid) :
    segPair? ⟨key ++ ('=' :: '"' :: (mid ++ ['"']))⟩ =
      some (goTrimSpace ⟨key⟩, ⟨mid⟩) := by
  have hlastv : ('=' :: '"' :: (mid ++ ['"'])).getLast? = some '"' := by
    rw [show '=' :: '"' :: (mid ++ ['"']) = ('=' :: '"' :: mid) ++ ['"'] by simp]
    exact List.getLast?_concat _
  have hhead : ∀ x ∈ (key ++ ('=' :: '"' :: (mid ++ ['"']))).head?,
      x.isWhitespace = false := by
    cases key with
    | nil => exact absurd rfl hkey_ne
    | cons a t =>
      intro x hx
      rw [List.cons_append] at hx
      simp at hx
      rw [← hx]
      exact hkey_hd a (by simp)
  have hlast : ∀ x ∈ (key ++ ('=' :: '"' :: (mid ++ ['"']))).getLast?,
      x.isWhitespace = false := by
    rw [List.getLast?_append, hlastv]
    intro x hx
    simp [Option.or] at hx
    rw [← hx]
    decide
  have htrim : goTrimSpace ⟨key ++ ('=' :: '"' :: (mid ++ ['"']))⟩ =
      ⟨key ++ ('=' :: '"' :: (mid ++ ['"']))⟩ := by
    unfold goTrimSpace
    rw [data_mk, trimBothL_eq_self _ _ hhead hlast]
  have hne : (⟨key ++ ('=' :: '"' :: (mid ++ ['"']))⟩ : String) ≠ "" := by
    intro h
    have := congrArg String.data h
    rw [data_mk] at this
    simp at this
  have hcut : goSplitN2 ⟨key ++ ('=' :: '"' :: (mid ++ ['"']))⟩ '=' =
      [⟨key⟩, ⟨'"' :: (mid ++ ['"'])⟩] := by
    unfold goSplitN2
    rw [data_mk, cutCharL_append_cons '=' key _ hkey_eq]
  have hv1 : goTrimSpace ⟨'"' :: (mid ++ ['"'])⟩ = ⟨'"' :: (mid ++ ['"'])⟩ := by
    unfold goTrimSpace
    rw [data_mk, trimBothL_eq_self _ _ (by simp)
      (by
        rw [show '"' :: (mid ++ ['"']) = ('"' :: mid) ++ ['"'] by simp,
          List.getLast?_concat]
        intro x hx
        cases hx
        decide)]
  have hv2 : goTrimChar ⟨'"' :: (mid ++ ['"'])⟩ '"' = ⟨mid⟩ := by
    unfold goTrimChar
    rw [data_mk]
    exact congrArg String.mk (trimBothL_wrap _ '"' mid (by decide)
      (fun x hx => by
        simp only [decide_eq_false_iff_not]
        exact fun he => hmid (he ▸ hx)))
  unfold segPair?
  rw [htrim, if_neg hne, hcut]
  simp only []
  rw [hv1, hv2]

/-- `segPair?` ignores a leading space. -/
theorem segPair?_cons_space (l : List Char) :
    segPair? ⟨' ' :: l⟩ = segPair? ⟨l⟩ := by
  have h : goTrimSpace ⟨' ' :: l⟩ = goTrimSpace ⟨l⟩ := by
    unfold goTrimSpace
    rw [data_mk, data_mk, trimBothL_cons_of_pos _ ' ' l (by decide)]
  unfold segPair?
  rw [h]

/-! ## Lemmas about the map model -/

theorem mapGet?_mapInsert_self (m : List (String × String)) (k v : String) :
    mapGet? (mapInsert m k v) k = some v := by
  induction m with
  | nil => simp [mapInsert, mapGet?]
  | cons p rest ih =>
    by_cases h : p.1 = k
    · simp [mapInsert, mapGet?, h]
    · simp [mapInsert, mapGet?, h, ih]

theorem mapGet?_mapInsert_ne (m : List (String × String)) (k v k' : String)
    (h : k ≠ k') : mapGet? (mapInsert m k v) k' = mapGet? m k' := by
  induction m with
  | nil => simp [mapInsert, mapGet?, h]
  | cons p rest ih =>
    by_cases hp : p.1 = k
    · simp [mapInsert, mapGet?, hp, h]
    · by_cases hp' : p.1 = k'
      · simp [mapInsert, mapGet?, hp, hp', Ne.symm h]
      · simp [mapInsert, mapGet?, hp, hp', ih]

/-- The value assigned by the **last** pair of `ps` carrying `key`, if any:
a pair further down the list shadows an earlier pair with the same key. -/
def lastWins : List (String × String) → String → Option String
  | [], _ => none
  | p :: t, key =>
    match lastWins t key with
    | some v => some v
    | none => if p.1 = key then some p.2 else none

theorem mapGet?_foldl_mapInsert (ps : List (String × String))
    (acc : List (String × String)) (key : String) :
    mapGet? (ps.foldl (fun m p => mapInsert m p.1 p.2) acc) key =
      match lastWins ps key with
      | some v => some v
      | none => mapGet? acc key := by
  induction ps generalizing acc with
  | nil => simp [lastWins]
  | cons p t ih =>
    rw [List.foldl_cons, ih]
    cases hl : lastWins t key with
    | some v => simp [lastWins, hl]
    | none =>
      by_cases hpk : p.1 = key
      · have hacc := mapGet?_mapInsert_self acc key p.2
        simp [lastWins, hl, hpk, hacc]
      · have hacc : mapGet? (mapInsert acc p.1 p.2) key = mapGet? acc key :=
          mapGet?_mapInsert_ne acc p.1 p.2 key hpk
        simp [lastWins, hl, hpk, hacc]

theorem foldl_segPair (parts : List String) (acc : List (String × String)) :
    parts.foldl
        (fun acc part =>
          match segPair? part with
          | some kv => mapInsert acc kv.1 kv.2
          | none => acc) acc =
      (parts.filterMap segPair?).foldl (fun m p => mapInsert m p.1 p.2) acc := by
  induction parts generalizing acc with
  | nil => rfl
  | cons part t ih =>
    rw [List.foldl_cons, List.filterMap_cons]
    cases h : segPair? part with
    | none => exact ih acc
    | some kv => exact ih (mapInsert acc kv.1 kv.2)

/-! ## Claim C9 -/

/-- C9: challenge parsing is total and deterministic — `parseAuth` is a pure
total function, and for every input string and key, the value it maps the
key to is exactly the value of the **last** parseable segment carrying that
key (`none` when no segment does); in particular, inputs with or without a
`Bearer ` prefix, with empty segments, with segments lacking `=`, or with
duplicate keys are all accepted without error and the last occurrence of a
duplicated key wins. -/
theorem parseAuth_total_last_wins (header key : String) :
    mapGet? (parseAuth header) key = lastWins (pairsOf header) key := by
  have h := mapGet?_foldl_mapInsert (pairsOf header) [] key
  rw [parseAuth, foldl_segPair, ← pairsOf, h]
  cases lastWins (pairsOf header) key <;> simp [mapGet?]

/-! ## Claim C4 -/

/-- The parsing algorithm exactly as the claim words it, except that the
claim's "a single pair of surrounding double quotes" is taken literally:
the value loses one leading and one trailing quote only when both are
present.  (The source instead strips **all** surrounding quotes.) -/
def stripOnePair (s : String) : String :=
  if s.data.head? = some '"' ∧ s.data.getLast? = some '"' ∧ 2 ≤ s.data.length
  then ⟨(s.data.drop 1).dropLast⟩ else s

/-- `segPair?` as the claim words it, with single-pair quote stripping. -/
def segPairSingle? (part : String) : Option (String × String) :=
  let part := goTrimSpace part
  if part = "" then none
  else
    match goSplitN2 part '=' with
    | [k, v] => some (goTrimSpace k, stripOnePair (goTrimSpace v))
    | _ => none

/-- The claim's parser: strip `Bearer `, split on commas, keep the segments
with `=`, trim, strip a **single** pair of surrounding quotes, last key
wins. -/
def parseAuthSingle (header : String) : List (String × String) :=
  ((goSplit (goTrimPre header "Bearer ") ',').filterMap segPairSingle?).foldl
    (fun m p => mapInsert m p.1 p.2) []

/-- C4 counterexample: on `Bearer realm=""x""` the source's `parseAuth`
strips **all** surrounding double quotes (`strings.Trim(v, "\"")`) and
yields `x`, while the claim's "a single pair of surrounding double quotes"
would yield `"x"`.  The claim, as stated, is false on this input. -/
theorem parseAuth_single_quote_pair_cex :
    parseAuth "Bearer realm=\"\"x\"\"" = [("realm", "x")] ∧
    parseAuthSingle "Bearer realm=\"\"x\"\"" = [("realm", "\"x\"")] ∧
    ("x" : String) ≠ "\"x\"" := by decide

/-- The parsing algorithm as amended: strip a leading `Bearer ` prefix,
split on commas, skip (without failing) every segment without `=`, split
each remaining segment once at its first `=`, trim the key, trim the value
and strip **all** leading and trailing double-quote characters from it, and
collapse the resulting pairs into a map where the last occurrence of a key
wins. -/
def parseAuthAmended (header : String) : List (String × String) :=
  (pairsOf header).foldl (fun m p => mapInsert m p.1 p.2) []

/-- C4 (amended): the challenge parser strips a leading `Bearer ` prefix,
splits on commas, splits each segment once on `=`, trims whitespace from
key and value, strips **all** (not a single pair of) surrounding double
quotes from the value, and skips segments without `=`; on the standard
example challenge it yields exactly the three quoted values. -/
theorem parseAuth_amended_algorithm :
    (∀ header, parseAuth header = parseAuthAmended header) ∧
    parseAuth "Bearer realm=\"https://auth.example.com/token\",service=\"registry.example.com\",scope=\"repository:lib/x:pull\"" =
      [("realm", "https://auth.example.com/token"),
       ("service", "registry.example.com"),
       ("scope", "repository:lib/x:pull")] := by
  constructor
  · intro header
    rw [parseAuth, parseAuthAmended, pairsOf, foldl_segPair]
  · decide

/-! ## Concrete scenario used by several witnesses -/

/-- The spec's standard example challenge. -/
def stdChallenge : String :=
  "Bearer realm=\"https://auth.example.com/token\",service=\"registry.example.com\",scope=\"repository:lib/x:pull\""

/-- A token-endpoint 200 response carrying `{"token": "tokA"}`. -/
def tokRespA : Resp :=
  { status := 200, headers := [], body := "\x7b\"token\":\"tokA\"\x7d",
    json := some [("token", .str "tokA")] }

/-- A token-endpoint 200 response carrying `{"token": "tokB"}`. -/
def tokRespB : Resp :=
  { status := 200, headers := [], body := "\x7b\"token\":\"tokB\"\x7d",
    json := some [("token", .str "tokB")] }

/-- An environment whose token endpoint currently issues `tokA`. -/
def oracleA : Oracle := fun _ _ => tokRespA

/-- An environment whose token endpoint currently issues `tokB` — the
response a *fresh* fetch would observe at some later time. -/
def oracleB : Oracle := fun _ _ => tokRespB

/-- The token-endpoint URL built from `stdChallenge` (query keys sorted by
`url.Values.Encode`). -/
def stdTokURL : String :=
  "https://auth.example.com/token?scope=repository:lib/x:pull&service=registry.example.com"

/-- The token cache after resolving `stdChallenge` once against `oracleA`. -/
def stdCache : List (String × String) :=
  [("https://auth.example.com/token:registry.example.com:repository:lib/x:pull", "tokA")]

/-! ## Claims C2 and C3 — the token cache -/

theorem handleAuth_cache_hit (oracle : Oracle) (n : Nat)
    (cache : List (String × String)) (h tok : String)
    (hr : mapGet (parseAuth h) "realm" ≠ "")
    (hs : mapGet (parseAuth h) "service" ≠ "")
    (hc : mapGet? cache (CachedProxy.cacheKeyOf h) = some tok) :
    CachedProxy.handleAuth oracle n cache h = (.ok tok, cache, n, []) := by
  unfold CachedProxy.handleAuth
  rw [if_neg (by exact not_or.mpr ⟨hr, hs⟩)]
  rw [show CachedProxy.cacheKey (mapGet (parseAuth h) "realm")
      (mapGet (parseAuth h) "service") (mapGet (parseAuth h) "scope") =
      CachedProxy.cacheKeyOf h from rfl, hc]

theorem handleAuth_ok_properties (oracle : Oracle) (n : Nat)
    (cache c' : List (String × String)) (h tok : String) (m : Nat) (cs : List Call)
    (hrun : CachedProxy.handleAuth oracle n cache h = (.ok tok, c', m, cs)) :
    mapGet (parseAuth h) "realm" ≠ "" ∧ mapGet (parseAuth h) "service" ≠ "" ∧
      mapGet? c' (CachedProxy.cacheKeyOf h) = some tok := by
  unfold CachedProxy.handleAuth at hrun
  by_cases hval : mapGet (parseAuth h) "realm" = "" ∨ mapGet (parseAuth h) "service" = ""
  · rw [if_pos hval] at hrun
    exact absurd (congrArg Prod.fst hrun) (by simp)
  · rw [if_neg hval] at hrun
    have hkey : CachedProxy.cacheKey (mapGet (parseAuth h) "realm")
        (mapGet (parseAuth h) "service") (mapGet (parseAuth h) "scope") =
        CachedProxy.cacheKeyOf h := rfl
    refine ⟨(not_or.mp hval).1, (not_or.mp hval).2, ?_⟩
    cases hcl : mapGet? cache (CachedProxy.cacheKeyOf h) with
    | some t0 =>
      rw [hkey, hcl] at hrun
      have h1 : t0 = tok := by
        have := congrArg Prod.fst hrun; simpa using this
      have h2 : cache = c' := by
        have := congrArg (fun x => x.2.1) hrun; simpa using this
      rw [← h2, hcl, h1]
    | none =>
      rw [hkey, hcl] at hrun
      rcases hft : CachedProxy.fetchToken oracle n (mapGet (parseAuth h) "realm")
          (mapGet (parseAuth h) "service") (mapGet (parseAuth h) "scope") with ⟨res, n', cs'⟩
      rw [hft] at hrun
      cases res with
      | error e => exact absurd (congrArg Prod.fst hrun) (by simp)
      | ok t =>
        have h1 : t = tok := by
          have := congrArg Prod.fst hrun; simpa using this
        have h2 : mapInsert cache (CachedProxy.cacheKeyOf h) t = c' := by
          have := congrArg (fun x => x.2.1) hrun; simpa using this
        rw [← h2, h1]
        exact mapGet?_mapInsert_self cache (CachedProxy.cacheKeyOf h) tok

/-- C3: for any two challenges whose parsed `(realm, service, scope)`
triples are identical, once the first has been resolved to a token — at any
call index, with any cache — resolving the second against the resulting
cache performs **zero** token-endpoint network calls (its trace is empty):
the cache is consulted under the serialized triple before any fetch, the hit
returns the first token, and the network round trip is skipped entirely.
The cache consults no clock, so this holds in particular throughout the
first token's validity window. -/
theorem tokenCache_second_resolve_no_fetch (oracle oracle' : Oracle) (n n' m : Nat)
    (cache c₁ : List (String × String)) (h₁ h₂ tok : String) (cs : List Call)
    (ht1 : mapGet (parseAuth h₂) "realm" = mapGet (parseAuth h₁) "realm")
    (ht2 : mapGet (parseAuth h₂) "service" = mapGet (parseAuth h₁) "service")
    (ht3 : mapGet (parseAuth h₂) "scope" = mapGet (parseAuth h₁) "scope")
    (hrun : CachedProxy.handleAuth oracle n cache h₁ = (.ok tok, c₁, m, cs)) :
    CachedProxy.handleAuth oracle' n' c₁ h₂ = (.ok tok, c₁, n', []) := by
  obtain ⟨hr, hs, hc⟩ := handleAuth_ok_properties oracle n cache c₁ h₁ tok m cs hrun
  have hkey : CachedProxy.cacheKeyOf h₂ = CachedProxy.cacheKeyOf h₁ := by
    unfold CachedProxy.cacheKeyOf CachedProxy.cacheKey
    rw [ht1, ht2, ht3]
  refine handleAuth_cache_hit oracle' n' c₁ h₂ tok ?_ ?_ ?_
  · rw [ht1]; exact hr
  · rw [ht2]; exact hs
  · rw [hkey]; exact hc

/-- C3 witness: resolving the standard challenge once against `oracleA`
caches `tokA`; a second resolution of the same challenge (any later call
index, any environment) is served from the cache with an empty trace. -/
theorem tokenCache_second_resolve_no_fetch_witness :
    CachedProxy.handleAuth oracleB 7 stdCache stdChallenge =
      (.ok "tokA", stdCache, 7, []) :=
  tokenCache_second_resolve_no_fetch oracleA oracleB 0 7 1 [] stdCache
    stdChallenge stdChallenge "tokA" [Call.tokenGet stdTokURL]
    rfl rfl rfl (by decide)

/-- C2 counterexample: the token cache of the source has **no** TTL — an
entry is a bare token string with no `expiresAt`, and `handleAuth` consults
no clock.  After `stdChallenge` is resolved once (caching `tokA`), a later
identical challenge — here at call index 99, against an environment whose
token endpoint would now issue `tokB` — is *still* served from the cache
with zero token-endpoint calls, and the stale `tokA` is returned.  Since the
computation takes no time input at all, this holds however much wall-clock
time has passed, so no TTL can have elapsed behaviourally: the claim that an
elapsed TTL forces a fresh network fetch (and that a stale token is never
returned) is false. -/
theorem tokenCache_no_ttl_cex :
    CachedProxy.handleAuth oracleA 0 [] stdChallenge =
      (.ok "tokA", stdCache, 1, [Call.tokenGet stdTokURL]) ∧
    CachedProxy.handleAuth oracleB 99 stdCache stdChallenge =
      (.ok "tokA", stdCache, 99, []) := by decide

/-- C2 (amended): a token-cache lookup returns the cached token whenever an
entry for the cache key is present, **regardless of elapsed time** — the
entry stores no `expiresAt` and the lookup consults no clock — so once a
token has been cached for a key, a subsequent identical challenge never
triggers a network fetch: the (possibly stale) cached token is served
indefinitely, against any environment and at any call index. -/
theorem tokenCache_hit_regardless_of_time (oracle : Oracle) (n : Nat)
    (cache : List (String × String)) (h tok : String)
    (hr : mapGet (parseAuth h) "realm" ≠ "")
    (hs : mapGet (parseAuth h) "service" ≠ "")
    (hc : mapGet? cache (CachedProxy.cacheKeyOf h) = some tok) :
    CachedProxy.handleAuth oracle n cache h = (.ok tok, cache, n, []) :=
  handleAuth_cache_hit oracle n cache h tok hr hs hc

/-- C2 witness: the cached `tokA` is served at call index 1000 against the
`tokB`-issuing environment, with no network call. -/
theorem tokenCache_hit_regardless_of_time_witness :
    CachedProxy.handleAuth oracleB 1000 stdCache stdChallenge =
      (.ok "tokA", stdCache, 1000, []) :=
  tokenCache_hit_regardless_of_time oracleB 1000 stdCache stdChallenge "tokA"
    (by decide) (by decide) (by decide)

/-! ## Claim C8 — the outbound challenge rewrite -/

theorem parseAuth_fold2 (p1 p2 k1 v1 k2 v2 : String)
    (h1 : segPair? p1 = some (k1, v1)) (h2 : segPair? p2 = some (k2, v2))
    (hne : ¬ k1 = k2) :
    [p1, p2].foldl
        (fun acc part =>
          match segPair? part with
          | some kv => mapInsert acc kv.1 kv.2
          | none => acc) [] = [(k1, v1), (k2, v2)] := by
  simp only [List.foldl_cons, List.foldl_nil, h1, h2]
  simp [mapInsert, hne]

theorem parseAuth_fold3 (p1 p2 p3 k1 v1 k2 v2 k3 v3 : String)
    (h1 : segPair? p1 = some (k1, v1)) (h2 : segPair? p2 = some (k2, v2))
    (h3 : segPair? p3 = some (k3, v3))
    (hne12 : ¬ k1 = k2) (hne13 : ¬ k1 = k3) (hne23 : ¬ k2 = k3) :
    [p1, p2, p3].foldl
        (fun acc part =>
          match segPair? part with
          | some kv => mapInsert acc kv.1 kv.2
          | none => acc) [] = [(k1, v1), (k2, v2), (k3, v3)] := by
  simp only [List.foldl_cons, List.foldl_nil, h1, h2, h3]
  simp [mapInsert, hne12, hne13, hne23]

/-- How `parseAuth` reads back the header `handleAuthChallenge` builds, for
any proxy domain and any upstream scope free of commas and double quotes:
the realm is the proxy's token endpoint, the service is the **fixed** string
`registry.docker.io`, and exactly the nonempty scopes survive. -/
theorem parseAuth_modifiedAuthHeader (d s : String)
    (hd1 : ',' ∉ d.data) (hd2 : '"' ∉ d.data)
    (hs1 : ',' ∉ s.data) (hs2 : '"' ∉ s.data) :
    parseAuth (AuthRewrite.modifiedAuthHeader d s) =
      if s = "" then
        [("realm", "https://" ++ d ++ "/auth/token"),
         ("service", "registry.docker.io")]
      else
        [("realm", "https://" ++ d ++ "/auth/token"),
         ("service", "registry.docker.io"), ("scope", s)] := by
  have hmid1 : '"' ∉ ("https://".data ++ (d.data ++ "/auth/token".data)) :=
    not_mem_appendL _ _ _ (by decide) (not_mem_appendL _ _ _ hd2 (by decide))
  have hseg1 : segPair? ⟨"realm".data ++
      ('=' :: '"' :: (("https://".data ++ (d.data ++ "/auth/token".data)) ++ ['"']))⟩ =
      some (goTrimSpace ⟨"realm".data⟩,
        ⟨"https://".data ++ (d.data ++ "/auth/token".data)⟩) :=
    segPair?_quoted _ _ (by decide) (by decide) (by decide) hmid1
  have hkey1 : goTrimSpace ⟨"realm".data⟩ = "realm" := by decide
  have hval1 : (⟨"https://".data ++ (d.data ++ "/auth/token".data)⟩ : String) =
      "https://" ++ d ++ "/auth/token" := by
    rw [show ("https://" ++ d ++ "/auth/token" : String) =
      ⟨("https://" ++ d ++ "/auth/token").data⟩ from rfl]
    exact congrArg String.mk (by simp [String.data_append])
  have hseg2 : segPair? ⟨" service=\"registry.docker.io\"".data⟩ =
      some ("service", "registry.docker.io") := by decide
  have m1 : ',' ∉ ("realm".data ++
      ('=' :: '"' :: (("https://".data ++ (d.data ++ "/auth/token".data)) ++ ['"']))) :=
    not_mem_appendL _ _ _ (by decide)
      (not_mem_consL _ _ _ (by decide)
        (not_mem_consL _ _ _ (by decide)
          (not_mem_appendL _ _ _
            (not_mem_appendL _ _ _ (by decide)
              (not_mem_appendL _ _ _ hd1 (by decide)))
            (by decide))))
  have hne1 : ¬ ("realm" : String) = "service" := by decide
  have hne2 : ¬ ("realm" : String) = "scope" := by decide
  have hne3 : ¬ ("service" : String) = "scope" := by decide
  by_cases hs : s = ""
  · subst hs
    rw [if_pos rfl]
    have hdata : (AuthRewrite.modifiedAuthHeader d "").data =
        "Bearer ".data ++ (("realm".data ++
          ('=' :: '"' :: (("https://".data ++ (d.data ++ "/auth/token".data)) ++ ['"']))) ++
            (',' :: " service=\"registry.docker.io\"".data)) := by
      have c1 : "Bearer realm=\"https://".data =
          "Bearer ".data ++ ("realm".data ++ ('=' :: '"' :: "https://".data)) := by decide
      have c2 : "/auth/token\", service=\"registry.docker.io\"".data =
          "/auth/token".data ++ ('"' :: (',' :: " service=\"registry.docker.io\"".data)) := by
        decide
      simp [AuthRewrite.modifiedAuthHeader, String.data_append, c1, c2,
        List.append_assoc]
    have hseg1' : segPair? ⟨"realm".data ++
        ('=' :: '"' :: (("https://".data ++ (d.data ++ "/auth/token".data)) ++ ['"']))⟩ =
        some ("realm", "https://" ++ d ++ "/auth/token") := by
      rw [hseg1, hkey1, hval1]
    unfold parseAuth
    rw [goTrimPre_of_data _ _ hdata]
    unfold goSplit
    rw [data_mk, splitOnCharL_append_cons ',' _ _ m1,
      splitOnCharL_of_not_mem ',' _ (by decide)]
    simp only [List.map_cons, List.map_nil]
    exact parseAuth_fold2 _ _ _ _ _ _ hseg1' hseg2 hne1
  · rw [if_neg hs]
    have hseg3 : segPair? ⟨' ' :: ("scope".data ++ ('=' :: '"' :: (s.data ++ ['"'])))⟩ =
        some ("scope", s) := by
      rw [segPair?_cons_space,
        segPair?_quoted _ _ (by decide) (by decide) (by decide) hs2,
        show goTrimSpace ⟨"scope".data⟩ = "scope" from by decide]
    have m3 : ',' ∉ (' ' :: ("scope".data ++ ('=' :: '"' :: (s.data ++ ['"'])))) :=
      not_mem_consL _ _ _ (by decide)
        (not_mem_appendL _ _ _ (by decide)
          (not_mem_consL _ _ _ (by decide)
            (not_mem_consL _ _ _ (by decide)
              (not_mem_appendL _ _ _ hs1 (by decide)))))
    have hdata : (AuthRewrite.modifiedAuthHeader d s).data =
        "Bearer ".data ++ (("realm".data ++
          ('=' :: '"' :: (("https://".data ++ (d.data ++ "/auth/token".data)) ++ ['"']))) ++
            (',' :: (" service=\"registry.docker.io\"".data ++
              (',' :: (' ' :: ("scope".data ++ ('=' :: '"' :: (s.data ++ ['"'])))))))) := by
      have c1 : "Bearer realm=\"https://".data =
          "Bearer ".data ++ ("realm".data ++ ('=' :: '"' :: "https://".data)) := by decide
      have c2 : "/auth/token\", service=\"registry.docker.io\"".data =
          "/auth/token".data ++ ('"' :: (',' :: " service=\"registry.docker.io\"".data)) := by
        decide
      have c3 : ", scope=\"".data =
          ',' :: (' ' :: ("scope".data ++ ('=' :: ['"']))) := by decide
      have c4 : "\"".data = ['"'] := by decide
      simp [AuthRewrite.modifiedAuthHeader, hs, String.data_append, c1, c2, c3, c4,
        List.append_assoc]
    have hseg1' : segPair? ⟨"realm".data ++
        ('=' :: '"' :: (("https://".data ++ (d.data ++ "/auth/token".data)) ++ ['"']))⟩ =
        some ("realm", "https://" ++ d ++ "/auth/token") := by
      rw [hseg1, hkey1, hval1]
    unfold parseAuth
    rw [goTrimPre_of_data _ _ hdata]
    unfold goSplit
    rw [data_mk, splitOnCharL_append_cons ',' _ _ m1,
      splitOnCharL_append_cons ',' _ _ (by decide),
      splitOnCharL_of_not_mem ',' _ m3]
    simp only [List.map_cons, List.map_nil]
    exact parseAuth_fold3 _ _ _ _ _ _ _ _ _ hseg1' hseg2 hseg3 hne1 hne2 hne3

/-- An upstream 401 challenge whose service is *not* Docker Hub's. -/
def upOther : String :=
  "Bearer realm=\"https://auth.other.example/token\",service=\"other.example\",scope=\"repository:x:pull\""

/-- C8 counterexample: the rewrite does **not** keep the upstream `service`.
For an upstream challenge with `service="other.example"`, the rewritten
challenge carries the hardcoded `service="registry.docker.io"` — while the
realm is indeed rewritten to the proxy's token endpoint and the scope is
kept.  The claim that service is kept unchanged from the upstream value is
false on this input. -/
theorem challenge_rewrite_service_cex :
    mapGet (parseAuth (AuthRewrite.handleAuthChallengeHeader "proxy.example.com" upOther))
        "service" = "registry.docker.io" ∧
    mapGet (parseAuth upOther) "service" = "other.example" ∧
    ("registry.docker.io" : String) ≠ "other.example" ∧
    mapGet (parseAuth (AuthRewrite.handleAuthChallengeHeader "proxy.example.com" upOther))
        "realm" = "https://proxy.example.com/auth/token" ∧
    mapGet (parseAuth (AuthRewrite.handleAuthChallengeHeader "proxy.example.com" upOther))
        "scope" = "repository:x:pull" := by decide

/-- C8 (amended): in the final response's rewritten `WWW-Authenticate`
challenge, `realm` is rewritten to `https://<the proxy's own host, taken
from the inbound request>/auth/token`, `service` is set to the **fixed**
string `registry.docker.io` regardless of the upstream value, and the
upstream challenge's `scope` is kept unchanged (appended when nonempty,
absent — reading back as the empty string — when the upstream scope was
empty); status and body of the response pass through untouched.  Stated for
every proxy host and upstream header whose host and parsed scope are free
of commas and double quotes, which every well-formed host and scope is. -/
theorem challenge_rewrite_amended (d up : String)
    (hd1 : ',' ∉ d.data) (hd2 : '"' ∉ d.data)
    (hs1 : ',' ∉ (mapGet (parseAuth up) "scope").data)
    (hs2 : '"' ∉ (mapGet (parseAuth up) "scope").data) :
    mapGet (parseAuth (AuthRewrite.handleAuthChallengeHeader d up)) "realm" =
      "https://" ++ d ++ "/auth/token" ∧
    mapGet (parseAuth (AuthRewrite.handleAuthChallengeHeader d up)) "service" =
      "registry.docker.io" ∧
    mapGet (parseAuth (AuthRewrite.handleAuthChallengeHeader d up)) "scope" =
      mapGet (parseAuth up) "scope" ∧
    (∀ resp : Resp,
      (AuthRewrite.handleAuthChallengeResp d resp).status = resp.status ∧
      (AuthRewrite.handleAuthChallengeResp d resp).body = resp.body) := by
  have h := parseAuth_modifiedAuthHeader d (mapGet (parseAuth up) "scope") hd1 hd2 hs1 hs2
  unfold AuthRewrite.handleAuthChallengeHeader
  by_cases hse : mapGet (parseAuth up) "scope" = ""
  · rw [if_pos hse] at h
    rw [h]
    refine ⟨?_, ?_, ?_, fun resp => ⟨rfl, rfl⟩⟩
    · simp [mapGet, mapGet?]
    · simp [mapGet, mapGet?]
    · simp [mapGet, mapGet?]
      exact hse.symm
  · rw [if_neg hse] at h
    rw [h]
    refine ⟨?_, ?_, ?_, fun resp => ⟨rfl, rfl⟩⟩
    · simp [mapGet, mapGet?]
    · simp [mapGet, mapGet?]
    · simp [mapGet, mapGet?]

/-- C8 witness: the amended rewrite at the counterexample's concrete input. -/
theorem challenge_rewrite_amended_witness :
    mapGet (parseAuth (AuthRewrite.handleAuthChallengeHeader "proxy.example.com" upOther))
        "realm" = "https://" ++ "proxy.example.com" ++ "/auth/token" ∧
    mapGet (parseAuth (AuthRewrite.handleAuthChallengeHeader "proxy.example.com" upOther))
        "service" = "registry.docker.io" ∧
    mapGet (parseAuth (AuthRewrite.handleAuthChallengeHeader "proxy.example.com" upOther))
        "scope" = mapGet (parseAuth upOther) "scope" ∧
    (∀ resp : Resp,
      (AuthRewrite.handleAuthChallengeResp "proxy.example.com" resp).status = resp.status ∧
      (AuthRewrite.handleAuthChallengeResp "proxy.example.com" resp).body = resp.body) :=
  challenge_rewrite_amended "proxy.example.com" upOther
    (by decide) (by decide) (by decide) (by decide)

/-! ## Claim C5 — incomplete challenge pass-through -/

/-- A representative inbound request. -/
def reqStd : Proxy.InReq :=
  { method := "GET"
    headers := [("Accept", "application/vnd.docker.distribution.manifest.v2+json")]
    body := "" }

/-- The first target URL of a relay for `/v2/library/alpine/manifests/latest`. -/
def tgtStd : String :=
  "https://registry-1.docker.io/v2/library/alpine/manifests/latest"

/-- C5: whenever the first upstream response of a relay is a 401 whose
parsed challenge has an empty or absent `realm` or `service`, the relay
makes no further network call — in particular zero token-endpoint calls —
and hands exactly the original 401 response (status, headers and body
untouched) to `writeResponse`, which streams it to the caller. -/
theorem incomplete_challenge_passthrough (oracle : Oracle) (fuel n : Nat)
    (r : Proxy.InReq) (target : String)
    (h401 : (oracle n (Proxy.plainCall r target)).status = 401)
    (hmiss :
      mapGet (parseAuth (headerGet (oracle n (Proxy.plainCall r target)).headers
        "WWW-Authenticate")) "realm" = "" ∨
      mapGet (parseAuth (headerGet (oracle n (Proxy.plainCall r target)).headers
        "WWW-Authenticate")) "service" = "") :
    Proxy.proxyRequest oracle (fuel + 1) n r target =
      some (oracle n (Proxy.plainCall r target), n + 1, [Proxy.plainCall r target]) ∧
    tokenCalls [Proxy.plainCall r target] = 0 := by
  constructor
  · unfold Proxy.proxyRequest
    simp [Proxy.relay, h401, hmiss]
  · rfl

/-- A 401 challenge missing its `service` parameter. -/
def chalNoService : String := "Bearer realm=\"https://auth.example.com/token\""

/-- The original 401 response for the C5 witness (extra header and body kept
to watch them pass through unmodified). -/
def resp401NoService : Resp :=
  { status := 401
    headers := [("WWW-Authenticate", chalNoService), ("Docker-Distribution-Api-Version", "registry/2.0")]
    body := "\x7b\"errors\":[\x7b\"code\":\"UNAUTHORIZED\"\x7d]\x7d"
    json := none }

/-- An upstream that always answers with the service-less 401. -/
def oracleNoService : Oracle := fun _ _ => resp401NoService

/-- C5 witness: the service-less 401 is passed through verbatim with a
single registry call and zero token-endpoint calls. -/
theorem incomplete_challenge_passthrough_witness :
    (Proxy.proxyRequest oracleNoService 5 0 reqStd tgtStd =
      some (resp401NoService, 1, [Proxy.plainCall reqStd tgtStd]) ∧
      tokenCalls [Proxy.plainCall reqStd tgtStd] = 0) :=
  incomplete_challenge_passthrough oracleNoService 4 0 reqStd tgtStd
    (by decide) (by decide)

/-! ## Claim C1 — the 401-after-retry path -/

/-- A 401 carrying the standard (complete) challenge. -/
def resp401Std : Resp :=
  { status := 401
    headers := [("WWW-Authenticate", stdChallenge)]
    body := "unauthorized"
    json := none }

/-- A plain 200 with body `OK`. -/
def respOK : Resp :=
  { status := 200, headers := [], body := "OK", json := none }

/-- The C1 counterexample environment, by call index: the first forward gets
a 401 with a valid challenge, the token fetch succeeds, the authenticated
retry gets a second 401 (body `denied-2`), and every later call gets a 200
`OK`. -/
def oracleC1 : Oracle := fun n _ =>
  match n with
  | 0 => resp401Std
  | 1 => tokRespA
  | 2 => { resp401Std with body := "denied-2" }
  | _ => respOK

/-- C1 counterexample: under `oracleC1` the authenticated retry (network
call 2) returns a 401, which the claim says is terminal and streamed to the
caller verbatim.  Instead the relay issues a **third** registry request —
it re-enters the unauthenticated main path — and the caller receives that
call's 200 `OK`, not the second 401: the final status is 200, the final
body is `OK`, three registry requests and one token fetch were made. -/
theorem authRetry401_not_terminal_cex :
    (Proxy.proxyRequest oracleC1 5 0 reqStd tgtStd).map
        (fun x => (x.1.status, x.1.body, registryCalls x.2.2, tokenCalls x.2.2)) =
      some (200, "OK", 3, 1) ∧
    (Proxy.proxyRequest oracleC1 5 0 reqStd tgtStd).map (fun x => x.1.status) ≠
      some 401 := by decide

/-- An upstream that answers **every** registry request — authenticated or
not — with the standard-challenge 401, while its token endpoint always
issues a token. -/
def oracleLoop : Oracle := fun _ c =>
  match c with
  | .registry .. => resp401Std
  | .tokenGet _ => tokRespA

theorem loop_step_plain (fuel n : Nat) (target : String) :
    Proxy.relay oracleLoop (fuel + 1) n reqStd target none =
      (Proxy.relay oracleLoop fuel (n + 2) reqStd target (some "tokA")).map
        (fun x => (x.1, x.2.1,
          Proxy.plainCall reqStd target :: Call.tokenGet stdTokURL :: x.2.2)) := rfl

theorem loop_step_authed (fuel n : Nat) (target token : String) :
    Proxy.relay oracleLoop (fuel + 1) n reqStd target (some token) =
      (Proxy.relay oracleLoop fuel (n + 1) reqStd target none).map
        (fun x => (x.1, x.2.1, Proxy.authedCall reqStd target token :: x.2.2)) := rfl

theorem loop_never_terminates (fuel : Nat) :
    ∀ (n : Nat) (target : String) (tokenOpt : Option String),
      Proxy.relay oracleLoop fuel n reqStd target tokenOpt = none := by
  induction fuel with
  | zero => intro n target tokenOpt; rfl
  | succ fuel ih =>
    intro n target tokenOpt
    cases tokenOpt with
    | none => rw [loop_step_plain, ih (n + 2) target (some "tokA")]; rfl
    | some token => rw [loop_step_authed, ih (n + 1) target none]; rfl

/-- C1 (amended): when the authenticated retry returns a 401, the engine
does **not** treat it as terminal — `fetchWithToken` goes back to the main
logic, reissuing the unauthenticated request to the same target URL, whose
result re-enters the 401 inspection (first conjunct).  Consequently an
upstream that persistently answers 401 with a valid challenge while its
token endpoint keeps succeeding drives the relay into an unbounded
authenticate-fetch-retry cycle: for every fuel bound the engine is still
recursing (second conjunct). -/
theorem authRetry401_reenters_and_can_loop :
    (∀ (oracle : Oracle) (fuel n : Nat) (r : Proxy.InReq) (target token : String),
      (oracle n (Proxy.authedCall r target token)).status = 401 →
      Proxy.fetchWithToken oracle (fuel + 1) n r target token =
        (Proxy.proxyRequest oracle fuel (n + 1) r target).map
          (fun x => (x.1, x.2.1, Proxy.authedCall r target token :: x.2.2))) ∧
    (∀ fuel n : Nat, Proxy.proxyRequest oracleLoop fuel n reqStd tgtStd = none) := by
  constructor
  · intro oracle fuel n r target token hst
    unfold Proxy.fetchWithToken Proxy.proxyRequest
    simp [Proxy.relay, hst, (show Proxy.isRedirect 401 = false by decide)]
  · intro fuel n
    exact loop_never_terminates fuel n tgtStd none

/-- C1 witness for the amended claim: under `oracleLoop` the authenticated
retry at call 0 gets a 401, so `fetchWithToken` hands control back to
`proxyRequest` on the same URL; and with fuel 9 the relay still has not
terminated. -/
theorem authRetry401_reenters_witness :
    (Proxy.fetchWithToken oracleLoop 3 0 reqStd tgtStd "tokA" =
      (Proxy.proxyRequest oracleLoop 2 1 reqStd tgtStd).map
        (fun x => (x.1, x.2.1, Proxy.authedCall reqStd tgtStd "tokA" :: x.2.2))) ∧
    Proxy.proxyRequest oracleLoop 9 0 reqStd tgtStd = none :=
  ⟨authRetry401_reenters_and_can_loop.1 oracleLoop 2 0 reqStd tgtStd "tokA" (by decide),
   authRetry401_reenters_and_can_loop.2 9 0⟩

/-! ## The order `sort.Strings` sorts by, and the encode-pair ordering -/

theorem strLeL_refl (l : List Char) : strLeL l l = true := by
  induction l with
  | nil => rfl
  | cons a as ih => simp [strLeL, ih]

theorem strLeL_total (a : List Char) : ∀ b, strLeL a b = true ∨ strLeL b a = true := by
  induction a with
  | nil => intro b; left; rfl
  | cons x xs ih =>
    intro b
    cases b with
    | nil => right; rfl
    | cons y ys =>
      rcases Nat.lt_trichotomy x.toNat y.toNat with h | h | h
      · left; simp [strLeL, h]
      · rcases ih ys with h2 | h2
        · left; simp [strLeL, h, Nat.lt_irrefl, h2]
        · right; simp [strLeL, h, Nat.lt_irrefl, h2]
      · right; simp [strLeL, h]

theorem strLeL_trans (a : List Char) :
    ∀ b c, strLeL a b = true → strLeL b c = true → strLeL a c = true := by
  induction a with
  | nil => intro b c _ _; rfl
  | cons x xs ih =>
    intro b c h1 h2
    cases b with
    | nil => simp [strLeL] at h1
    | cons y ys =>
      cases c with
      | nil => simp [strLeL] at h2
      | cons z zs =>
        by_cases hxy : x.toNat < y.toNat
        · by_cases hyz : y.toNat < z.toNat
          · simp [strLeL, Nat.lt_trans hxy hyz]
          · by_cases hzy : z.toNat < y.toNat
            · simp [strLeL, hyz, hzy] at h2
            · have : x.toNat < z.toNat := by omega
              simp [strLeL, this]
        · by_cases hyx : y.toNat < x.toNat
          · simp [strLeL, hxy, hyx] at h1
          · by_cases hyz : y.toNat < z.toNat
            · have : x.toNat < z.toNat := by omega
              simp [strLeL, this]
            · by_cases hzy : z.toNat < y.toNat
              · simp [strLeL, hyz, hzy] at h2
              · have h1' : strLeL xs ys = true := by
                  simpa [strLeL, hxy, hyx] using h1
                have h2' : strLeL ys zs = true := by
                  simpa [strLeL, hyz, hzy] using h2
                have hxz : ¬ x.toNat < z.toNat := by omega
                have hzx : ¬ z.toNat < x.toNat := by omega
                simp [strLeL, hxz, hzx, ih ys zs h1' h2']

instance : IsTotal String (fun a b => strLe a b = true) :=
  ⟨fun a b => strLeL_total a.data b.data⟩

instance : IsTrans String (fun a b => strLe a b = true) :=
  ⟨fun a b c => strLeL_trans a.data b.data c.data⟩

theorem sortedKeys_sorted (q : QVals) :
    List.Pairwise (fun a b : String => strLe a b = true) (sortedKeys q) :=
  List.sorted_insertionSort _ _

/-- The output of `url.Values.Encode` carries its keys in sorted order. -/
theorem encodePairs_sorted (q : QVals) :
    List.Pairwise (fun a b : String × String => strLe a.1 b.1 = true) (encodePairs q) := by
  unfold encodePairs
  rw [List.pairwise_flatten]
  constructor
  · intro l hl
    rw [List.mem_map] at hl
    obtain ⟨k, _, rfl⟩ := hl
    rw [List.pairwise_map]
    exact List.Pairwise.imp (fun _ => by simpa [strLe] using strLeL_refl k.data)
      (List.pairwise_of_forall (fun _ _ => trivial) : List.Pairwise (fun _ _ => True) (qGet q k))
  · rw [List.pairwise_map]
    refine (sortedKeys_sorted q).imp ?_
    intro a b hab x hx y hy
    rw [List.mem_map] at hx hy
    obtain ⟨v, _, rfl⟩ := hx
    obtain ⟨w, _, rfl⟩ := hy
    exact hab

/-! ## Lemmas about `url.Values` -/

theorem qGet_qSet_self (q : QVals) (k v : String) : qGet (qSet q k v) k = [v] := by
  induction q with
  | nil => simp [qSet, qGet]
  | cons p rest ih =>
    by_cases h : p.1 = k
    · simp [qSet, qGet, h]
    · simp [qSet, qGet, h, ih]

theorem qGet_qSet_ne (q : QVals) (k v k' : String) (h : k ≠ k') :
    qGet (qSet q k v) k' = qGet q k' := by
  induction q with
  | nil => simp [qSet, qGet, h]
  | cons p rest ih =>
    by_cases hp : p.1 = k
    · simp [qSet, qGet, hp, h, Ne.symm h]
    · by_cases hp' : p.1 = k'
      · simp [qSet, qGet, hp, hp', Ne.symm h]
      · simp [qSet, qGet, hp, hp', ih]

/-! ## Claim C7 — redirect statuses and resolution -/

/-- C7: (1) the statuses the relay treats as redirects are exactly 301,
302, 303, 307 and 308; (2) `ResolveReference` uses an absolute `Location`
(nonempty scheme) verbatim, and gives a rooted relative `Location` the
current target's scheme and host; (3)–(4) the spec's two resolution
examples; (5)–(6) on a redirect response with nonempty `Location`, both the
unauthenticated and the authenticated relay continue at exactly the
`Location` resolved against the current target URL, re-forwarding the same
inbound request `r` — hence the same method and the same body (and, on the
authenticated path, the same bearer token). -/
theorem redirect_semantics :
    (∀ s : Nat, Proxy.isRedirect s = true ↔
      (s = 301 ∨ s = 302 ∨ s = 303 ∨ s = 307 ∨ s = 308)) ∧
    ((∀ base ref : GoURL, ref.scheme ≠ "" → resolveReference base ref = ref) ∧
     (∀ base ref : GoURL, ref.scheme = "" → ref.host = "" →
       ref.path.data.head? = some '/' →
       resolveReference base ref = ⟨base.scheme, base.host, ref.path, ref.rawQuery⟩)) ∧
    urlString (resolveReference
        (parseURL "https://registry.example.com/v2/x/blobs/sha256:abc")
        (parseURL "/v2/x/blobs/sha256:abc?redirect=1")) =
      "https://registry.example.com/v2/x/blobs/sha256:abc?redirect=1" ∧
    urlString (resolveReference
        (parseURL "https://registry.example.com/v2/x/blobs/sha256:abc")
        (parseURL "https://cdn.example.com/blob")) =
      "https://cdn.example.com/blob" ∧
    (∀ (oracle : Oracle) (fuel n : Nat) (r : Proxy.InReq) (target : String),
      Proxy.isRedirect (oracle n (Proxy.plainCall r target)).status = true →
      headerGet (oracle n (Proxy.plainCall r target)).headers "Location" ≠ "" →
      Proxy.proxyRequest oracle (fuel + 1) n r target =
        (Proxy.proxyRequest oracle fuel (n + 1) r
          (urlString (resolveReference (parseURL target)
            (parseURL (headerGet (oracle n (Proxy.plainCall r target)).headers
              "Location"))))).map
          (fun x => (x.1, x.2.1, Proxy.plainCall r target :: x.2.2))) ∧
    (∀ (oracle : Oracle) (fuel n : Nat) (r : Proxy.InReq) (target token : String),
      Proxy.isRedirect (oracle n (Proxy.authedCall r target token)).status = true →
      headerGet (oracle n (Proxy.authedCall r target token)).headers "Location" ≠ "" →
      Proxy.fetchWithToken oracle (fuel + 1) n r target token =
        (Proxy.fetchWithToken oracle fuel (n + 1) r
          (urlString (resolveReference (parseURL target)
            (parseURL (headerGet (oracle n (Proxy.authedCall r target token)).headers
              "Location")))) token).map
          (fun x => (x.1, x.2.1, Proxy.authedCall r target token :: x.2.2))) := by
  refine ⟨?_, ⟨?_, ?_⟩, by decide, by decide, ?_, ?_⟩
  · intro s
    simp [Proxy.isRedirect]
  · intro base ref h
    simp [resolveReference, h]
  · intro base ref h1 h2 h3
    have hpne : ref.path ≠ "" := by
      intro h; rw [h] at h3; simp at h3
    simp [resolveReference, h1, h2, h3, hpne]
  · intro oracle fuel n r target hst hloc
    have h401 : (oracle n (Proxy.plainCall r target)).status ≠ 401 := by
      intro h; rw [h] at hst; exact absurd hst (by decide)
    unfold Proxy.proxyRequest
    simp [Proxy.relay, hst, hloc, h401]
  · intro oracle fuel n r target token hst hloc
    unfold Proxy.fetchWithToken
    simp [Proxy.relay, hst, hloc]

/-- The redirecting upstream of the C7 witness: the first forward gets a
307 pointing at the rooted path, everything later a 200. -/
def oracleRedir : Oracle := fun n _ =>
  if n = 0 then
    { status := 307
      headers := [("Location", "/v2/x/blobs/sha256:abc?redirect=1")]
      body := "", json := none }
  else respOK

/-! ## Claims C6 and C10 — `fetchToken` -/

/-- The query `fetchToken` (src/proxy/proxy.go lines 243–254) sends: the
realm URL's own query with `service` set to the challenge's service and,
when the challenge carries a nonempty scope, `scope` set to it. -/
def tokQuery (authParams : List (String × String)) (realm service : String) : QVals :=
  let q1 := qSet (parseQuery (parseURL realm).rawQuery) "service" service
  match mapGet? authParams "scope" with
  | some scope => if scope ≠ "" then qSet q1 "scope" scope else q1
  | none => q1

/-- The URL of the GET `fetchToken` issues: the realm URL with its query
re-encoded from `tokQuery`. -/
def tokURL (authParams : List (String × String)) (realm service : String) : String :=
  urlString { parseURL realm with rawQuery := encodeQ (tokQuery authParams realm service) }

theorem fetchToken_trace (oracle : Oracle) (n : Nat)
    (authParams : List (String × String)) (realm service : String)
    (hr : mapGet? authParams "realm" = some realm) (hrne : realm ≠ "")
    (hs : mapGet? authParams "service" = some service) (hsne : service ≠ "") :
    Proxy.fetchToken oracle n authParams =
      (Proxy.tokenFromResp (oracle n (Call.tokenGet (tokURL authParams realm service))),
        n + 1, [Call.tokenGet (tokURL authParams realm service)]) := by
  simp [Proxy.fetchToken, tokURL, tokQuery, hr, hrne, hs, hsne]

/-- C6: for every valid challenge (present, nonempty `realm` and `service`),
`fetchToken` issues exactly one GET, to the realm URL whose query carries
`service=<service>` and — when the challenge holds a nonempty scope —
`scope=<scope>`; the result of the fetch is `tokenFromResp` of the
upstream's answer, where any non-200 status is an error, a 200 answer
yields the JSON body's nonempty `token` field, else its nonempty
`access_token` field, and it is an error if neither is present and
nonempty. -/
theorem fetchToken_contract (oracle : Oracle) (n : Nat)
    (authParams : List (String × String)) (realm service : String)
    (hr : mapGet? authParams "realm" = some realm) (hrne : realm ≠ "")
    (hs : mapGet? authParams "service" = some service) (hsne : service ≠ "") :
    (Proxy.fetchToken oracle n authParams =
      (Proxy.tokenFromResp (oracle n (Call.tokenGet (tokURL authParams realm service))),
        n + 1, [Call.tokenGet (tokURL authParams realm service)])) ∧
    qGet (tokQuery authParams realm service) "service" = [service] ∧
    (∀ scope, mapGet? authParams "scope" = some scope → scope ≠ "" →
      qGet (tokQuery authParams realm service) "scope" = [scope]) ∧
    (∀ resp : Resp, resp.status ≠ 200 →
      Proxy.tokenFromResp resp = .error (.badStatus resp.status)) ∧
    (∀ resp data t, resp.status = 200 → resp.json = some data →
      jsonStr? data "token" = some t → t ≠ "" → Proxy.tokenFromResp resp = .ok t) ∧
    (∀ resp data a, resp.status = 200 → resp.json = some data →
      (jsonStr? data "token" = none ∨ jsonStr? data "token" = some "") →
      jsonStr? data "access_token" = some a → a ≠ "" →
      Proxy.tokenFromResp resp = .ok a) ∧
    (∀ resp data, resp.status = 200 → resp.json = some data →
      (jsonStr? data "token" = none ∨ jsonStr? data "token" = some "") →
      (jsonStr? data "access_token" = none ∨ jsonStr? data "access_token" = some "") →
      Proxy.tokenFromResp resp = .error .noToken) := by
  refine ⟨fetchToken_trace oracle n authParams realm service hr hrne hs hsne,
    ?_, ?_, ?_, ?_, ?_, ?_⟩
  · cases hsc : mapGet? authParams "scope" with
    | none => simp [tokQuery, hsc, qGet_qSet_self]
    | some scope =>
      by_cases hse : scope = ""
      · simp [tokQuery, hsc, hse, qGet_qSet_self]
      · simp [tokQuery, hsc, hse, qGet_qSet_self,
          qGet_qSet_ne _ "scope" scope "service" (by decide)]
  · intro scope hsc hse
    simp [tokQuery, hsc, hse, qGet_qSet_self]
  · intro resp h
    simp [Proxy.tokenFromResp, h]
  · intro resp data t h200 hj ht htne
    simp [Proxy.tokenFromResp, Proxy.pickToken, h200, hj, ht, htne]
  · intro resp data a h200 hj ht ha hane
    rcases ht with ht | ht <;>
      simp [Proxy.tokenFromResp, Proxy.pickToken, h200, hj, ht, ha, hane]
  · intro resp data h200 hj ht ha
    rcases ht with ht | ht <;> rcases ha with ha | ha <;>
      simp [Proxy.tokenFromResp, Proxy.pickToken, h200, hj, ht, ha]

/-- A challenge whose realm URL already carries query parameters, among
them a stale `service`. -/
def qryChallenge : String :=
  "Bearer realm=\"https://auth.example.com/token?zz=1&aa=2&service=old\",service=\"svc\",scope=\"sc\""

/-- C6 witness: on `qryChallenge` against `oracleA`, exactly one GET goes to
the rebuilt realm URL and the 200 `{"token": "tokA"}` answer yields `tokA`. -/
theorem fetchToken_contract_witness :
    Proxy.fetchToken oracleA 0 (parseAuth qryChallenge) =
      (.ok "tokA", 1,
        [Call.tokenGet "https://auth.example.com/token?aa=2&scope=sc&service=svc&zz=1"]) ∧
    qGet (tokQuery (parseAuth qryChallenge)
      "https://auth.example.com/token?zz=1&aa=2&service=old" "svc") "service" = ["svc"] :=
  ⟨(fetchToken_contract oracleA 0 (parseAuth qryChallenge)
      "https://auth.example.com/token?zz=1&aa=2&service=old" "svc"
      (by decide) (by decide) (by decide) (by decide)).1,
   (fetchToken_contract oracleA 0 (parseAuth qryChallenge)
      "https://auth.example.com/token?zz=1&aa=2&service=old" "svc"
      (by decide) (by decide) (by decide) (by decide)).2.1⟩

/-- C10: when the realm URL already carries query parameters, the single
GET `fetchToken` issues keeps them, except that `service` — and, when the
challenge carries a nonempty scope, `scope` — is overwritten by the
challenge's value; and the re-encoded query lists its keys in sorted order
(`url.Values.Encode` sorts the keys) rather than in the realm's original
order. -/
theorem fetchToken_query_rebuild (oracle : Oracle) (n : Nat)
    (authParams : List (String × String)) (realm service : String)
    (hr : mapGet? authParams "realm" = some realm) (hrne : realm ≠ "")
    (hs : mapGet? authParams "service" = some service) (hsne : service ≠ "") :
    (Proxy.fetchToken oracle n authParams).2.2 =
      [Call.tokenGet (tokURL authParams realm service)] ∧
    (∀ k, k ≠ "service" → k ≠ "scope" →
      qGet (tokQuery authParams realm service) k =
        qGet (parseQuery (parseURL realm).rawQuery) k) ∧
    qGet (tokQuery authParams realm service) "service" = [service] ∧
    (∀ scope, mapGet? authParams "scope" = some scope → scope ≠ "" →
      qGet (tokQuery authParams realm service) "scope" = [scope]) ∧
    List.Pairwise (fun a b : String × String => strLe a.1 b.1 = true)
      (encodePairs (tokQuery authParams realm service)) := by
  refine ⟨?_, ?_, ?_, ?_, encodePairs_sorted _⟩
  · rw [fetchToken_trace oracle n authParams realm service hr hrne hs hsne]
  · intro k hks hksc
    cases hsc : mapGet? authParams "scope" with
    | none => simp [tokQuery, hsc, qGet_qSet_ne _ "service" service k (Ne.symm hks)]
    | some scope =>
      by_cases hse : scope = ""
      · simp [tokQuery, hsc, hse, qGet_qSet_ne _ "service" service k (Ne.symm hks)]
      · simp [tokQuery, hsc, hse, qGet_qSet_ne _ "scope" scope k (Ne.symm hksc),
          qGet_qSet_ne _ "service" service k (Ne.symm hks)]
  · cases hsc : mapGet? authParams "scope" with
    | none => simp [tokQuery, hsc, qGet_qSet_self]
    | some scope =>
      by_cases hse : scope = ""
      · simp [tokQuery, hsc, hse, qGet_qSet_self]
      · simp [tokQuery, hsc, hse, qGet_qSet_self,
          qGet_qSet_ne _ "scope" scope "service" (by decide)]
  · intro scope hsc hse
    simp [tokQuery, hsc, hse, qGet_qSet_self]

/-- C10 witness: for `qryChallenge`, the realm's own `zz` and `aa`
parameters survive, its stale `service=old` is overwritten with `svc`, the
challenge's scope is set, and the emitted query is re-encoded in sorted key
order, `aa=2&scope=sc&service=svc&zz=1`. -/
theorem fetchToken_query_rebuild_witness :
    (Proxy.fetchToken oracleA 0 (parseAuth qryChallenge)).2.2 =
      [Call.tokenGet "https://auth.example.com/token?aa=2&scope=sc&service=svc&zz=1"] ∧
    qGet (tokQuery (parseAuth qryChallenge)
      "https://auth.example.com/token?zz=1&aa=2&service=old" "svc") "zz" = ["1"] :=
  ⟨(fetchToken_query_rebuild oracleA 0 (parseAuth qryChallenge)
      "https://auth.example.com/token?zz=1&aa=2&service=old" "svc"
      (by decide) (by decide) (by decide) (by decide)).1,
   (fetchToken_query_rebuild oracleA 0 (parseAuth qryChallenge)
      "https://auth.example.com/token?zz=1&aa=2&service=old" "svc"
      (by decide) (by decide) (by decide) (by decide)).2.1 "zz" (by decide) (by decide)⟩

/-- C7 witness: 307 is a redirect status and the relay's next hop after the
307 is the `Location` resolved against the current target — same inbound
request, target rewritten to the resolved URL. -/
theorem redirect_semantics_witness :
    Proxy.isRedirect 307 = true ∧
    Proxy.proxyRequest oracleRedir 4 0 reqStd
        "https://registry.example.com/v2/x/blobs/sha256:abc" =
      (Proxy.proxyRequest oracleRedir 3 1 reqStd
        "https://registry.example.com/v2/x/blobs/sha256:abc?redirect=1").map
        (fun x => (x.1, x.2.1,
          Proxy.plainCall reqStd "https://registry.example.com/v2/x/blobs/sha256:abc" :: x.2.2)) :=
  ⟨(redirect_semantics.1 307).mpr (by decide),
   redirect_semantics.2.2.2.2.1 oracleRedir 3 0 reqStd
     "https://registry.example.com/v2/x/blobs/sha256:abc" (by decide) (by decide)⟩

end HubP
